import Mathlib

/-
Verification of the sequencing and routing core of the SU (Scheduler Unit)
server, a shallow embedding of src/servers/su/src/domain/scheduler.rs and
src/servers/su/src/domain/flows.rs.

Conventions of the embedding:
  - Rust i32 and i64 fields are modelled as Int (no claim exercises overflow).
  - Fallible Rust functions returning Result are modelled with Except.
  - Wall clock reads are modelled by an explicit now_ms argument.
  - The store client (crate::domain::clients::store) is not part of the two
    embedded files; its operations are modelled from the interface the spec
    gives for it, or kept abstract as oracle arguments where a claim
    quantifies over store behaviour.
  - gen_hash_chain computes a base64-url encoded SHA-256 digest of the two
    input strings; no claim depends on the value of the digest, only on the
    arguments it receives, so the digest function is an abstract parameter H
    of the definitions that use it.
-/

namespace Su

/-- Error type of the store client. Modelled from the spec: the store client
is outside the embedded files; the spec requires that errors distinguish at
least NotFound from other failure kinds. -/
inductive StoreErrorType where
  | NotFound : String → StoreErrorType
  | Other : String → StoreErrorType
deriving DecidableEq

/-- Debug formatting of a store error, standing in for the Rust conversion of
a StoreErrorType into a String error. -/
def StoreErrorType.fmt : StoreErrorType → String
  | .NotFound m => "NotFound(" ++ m ++ ")"
  | .Other m => "Other(" ++ m ++ ")"

/-- Persisted message row. Modelled from the spec: the Message type lives in
core/json.rs which is not among the embedded files; the spec lists the fields
process_id, epoch, nonce, timestamp and hash_chain, and scheduler.rs reads
epoch, nonce and hash_chain from the previous message. -/
structure Message where
  process_id : String
  epoch : Int
  nonce : Int
  timestamp : Int
  hash_chain : String
deriving DecidableEq

/-- ScheduleInfo from scheduler.rs: the tuple the sequencer computes for the
next item in the schedule. -/
structure ScheduleInfo where
  epoch : Int
  nonce : Int
  timestamp : Int
  hash_chain : String
deriving DecidableEq

/-- Modelled from the spec: get_latest_message of the store client returns
the latest persisted message of the process id it is given, or none. The
honest store is a list of persisted messages in insertion order; latest is
the last matching entry. -/
def latestOf (msgs : List Message) (pid : String) : Option Message :=
  (msgs.filter (fun m => m.process_id == pid)).getLast?

/-- The honest store lookup wrapped in the Result type the store client
exposes (it can also fail, which the oracle form captures). -/
def latestOfOk (msgs : List Message) (pid : String) :
    Except String (Option Message) :=
  .ok (latestOf msgs pid)

/-- fetch_values from scheduler.rs lines 102-133. H stands for
gen_hash_chain, getLatest for deps.data_store.get_latest_message, and now_ms
for the wall clock milliseconds computed at the head of the function. Note
that the source passes message_id, not process_id, to get_latest_message
(line 113). -/
def fetch_values (H : String → String → String)
    (getLatest : String → Except String (Option Message))
    (process_id : String) (message_id_in : Option String) (now_ms : Int) :
    Except String (Int × Int × String × Int) :=
  match message_id_in with
  | some message_id =>
    match getLatest message_id with
    | .error e => .error e
    | .ok (some previous_message) =>
      .ok (previous_message.epoch, previous_message.nonce + 1,
           H previous_message.hash_chain message_id, now_ms)
    | .ok none =>
      .ok (0, 0, H process_id message_id, now_ms)
  | none => .ok (0, 0, "wont be used", now_ms)

/-- acquire_lock from scheduler.rs lines 60-86, as the value computation it
performs: the ScheduleInfo stored into the per-process entry and handed back
to the caller. Locking itself is modelled by the event trace below. -/
def acquire_lock (H : String → String → String)
    (getLatest : String → Except String (Option Message))
    (id : String) (message_id : Option String) (now_ms : Int) :
    Except String ScheduleInfo :=
  match fetch_values H getLatest id message_id now_ms with
  | .error e => .error ("error acquiring scheduler lock " ++ e)
  | .ok (ep, n, hc, ts) => .ok ⟨ep, n, ts, hc⟩

/-- Events in the life of one sequencing call and the write that uses its
values. -/
inductive SeqEvent where
  | lockAcquire
  | fetchCompute
  | lockRelease
  | persistMessage
deriving DecidableEq, BEq

/-- Order of events of one acquire_lock call followed by the persistence of
the message carrying the computed values. From scheduler.rs lines 73-83: the
guard on the per-process mutex lives in an inner scope that ends, releasing
the lock (the source comments say so explicitly), before acquire_lock
returns; the caller persists the message only after the call returns, so the
persist event comes after the release event. -/
def acquireThenPersist : List SeqEvent :=
  [.lockAcquire, .fetchCompute, .lockRelease, .persistMessage]

/-- A concrete stand-in digest used only to instantiate the abstract hash
parameter H in concrete evaluations; it is injective on pairs of strings
without the separator, which is all the evaluations need. -/
def testHash (a b : String) : String := a ++ "#" ++ b

/-- Concrete store contents for the sequencer evaluations: process p already
has one persisted message with nonce 4 and hash chain value h0. -/
def msgsP : List Message := [⟨"p", 0, 4, 5, "h0"⟩]

/-! Router and orchestration layer, from flows.rs. -/

/-- A data item tag, as exposed by the Builder collaborator. -/
structure Tag where
  name : String
  value : String
deriving DecidableEq

/-- The part of a built data item that flows.rs reads: id, target and tags of
the first bundle item. The Builder that produces it is an external
collaborator. -/
structure DataItem where
  id : String
  target : String
  tags : List Tag
deriving DecidableEq

/-- Scheduler registry row. Modelled from the spec: the type lives in
core/router.rs which is not among the embedded files; the spec lists row_id
(assigned by the store on insert), url and process_count. -/
structure Scheduler where
  row_id : Option Int
  url : String
  process_count : Int
deriving DecidableEq

/-- Assignment record mapping a process to a scheduler row. Modelled from
the spec: the type lives in core/router.rs which is not among the embedded
files. -/
structure ProcessSchedulerRec where
  row_id : Option Int
  scheduler_row_id : Int
  process_id : String
deriving DecidableEq

/-- Durable store state the router reads and writes: scheduler rows and
assignment records, each in store iteration order. -/
structure Store where
  schedulers : List Scheduler
  process_schedulers : List ProcessSchedulerRec
deriving DecidableEq

/-- Modelled from the spec: get_process_scheduler of the store client
returns the assignment record of the given process id or NotFound. -/
def get_process_scheduler (s : Store) (pid : String) :
    Except StoreErrorType ProcessSchedulerRec :=
  match s.process_schedulers.find? (fun ps => ps.process_id == pid) with
  | some ps => .ok ps
  | none => .error (.NotFound "process scheduler")

/-- Modelled from the spec: get_scheduler of the store client returns the
scheduler row with the given row id or NotFound. -/
def get_scheduler (s : Store) (rid : Int) : Except StoreErrorType Scheduler :=
  match s.schedulers.find? (fun sch => sch.row_id == some rid) with
  | some sch => .ok sch
  | none => .error (.NotFound "scheduler")

/-- Modelled from the spec: get_scheduler_by_url of the store client returns
the scheduler row with the given url or NotFound. -/
def get_scheduler_by_url (s : Store) (u : String) :
    Except StoreErrorType Scheduler :=
  match s.schedulers.find? (fun sch => sch.url == u) with
  | some sch => .ok sch
  | none => .error (.NotFound "scheduler")

/-- The configuration fields flows.rs reads: the operating mode and the
designated native (staking) process id. -/
structure Config where
  mode : String
  ao_process_id : String
deriving DecidableEq

/-- redirect_process_id from flows.rs lines 260-280. -/
def redirect_process_id (cfg : Config) (s : Store)
    (process_id : Option String) : Except String (Option String) :=
  if cfg.mode ≠ "router" then .ok none
  else
    match process_id with
    | none => .error "No process-id query parameter provided"
    | some pid =>
      if pid == cfg.ao_process_id then .ok none
      else
        match get_process_scheduler s pid with
        | .error e => .error e.fmt
        | .ok ps =>
          match get_scheduler s ps.scheduler_row_id with
          | .error e => .error e.fmt
          | .ok sch => .ok (some sch.url)

/-- Error message of redirect_tx_id when no assignment can be resolved. -/
def noProcessMsg : String :=
  "Unable to locate process, if this is a message id query be sure to pass the process-id query parameter"

/-- redirect_tx_id from flows.rs lines 283-313: resolve on tx_id first, fall
back to the process-id hint, then resolve the assignment and return the url
of its scheduler. -/
def redirect_tx_id (cfg : Config) (s : Store) (tx_id : String)
    (process_id : Option String) : Except String (Option String) :=
  if cfg.mode ≠ "router" then .ok none
  else if tx_id == cfg.ao_process_id then .ok none
  else
    let process_to_query : Except String String :=
      match get_process_scheduler s tx_id with
      | .error _ =>
        match process_id with
        | some p => .ok p
        | none => .error noProcessMsg
      | .ok _ => .ok tx_id
    match process_to_query with
    | .error e => .error e
    | .ok q =>
      match get_process_scheduler s q with
      | .ok ps =>
        match get_scheduler s ps.scheduler_row_id with
        | .error e => .error e.fmt
        | .ok sch => .ok (some sch.url)
      | .error _ => .error noProcessMsg

/-- First element minimising the key, as Rust min_by_key on an iterator: on
ties the earliest element wins. -/
def minByKey (f : Scheduler → Int) : List Scheduler → Option Scheduler
  | [] => none
  | x :: xs =>
    match minByKey f xs with
    | none => some x
    | some y => if f y < f x then some y else some x

/-- update_scheduler of the store client applied to the state. Modelled from
the spec: persists the updated scheduler, replacing the row that carries the
same row id. -/
def update_scheduler (s : Store) (sch : Scheduler) : Store :=
  { s with schedulers :=
      s.schedulers.map (fun r => if r.row_id == sch.row_id then sch else r) }

/-- save_process_scheduler of the store client applied to the state.
Modelled from the spec: inserts the assignment record. -/
def save_process_scheduler (s : Store) (ps : ProcessSchedulerRec) : Store :=
  { s with process_schedulers := s.process_schedulers ++ [ps] }

/-- redirect_data_item from flows.rs lines 317-394. The Builder call is
external, so the function takes the outcome of build as an argument; the
second component of the result is the store state after the call, which the
source mutates through save_process_scheduler and update_scheduler. -/
def redirect_data_item (cfg : Config) (s : Store)
    (buildRes : Except String DataItem) :
    Except String (Option String) × Store :=
  if cfg.mode ≠ "router" then (.ok none, s)
  else
    match buildRes with
    | .error e => (.error e, s)
    | .ok item =>
      match item.tags.find? (fun t => t.name == "Type") with
      | none => (.error "Cannot redirect data item, invalid Type Tag", s)
      | some type_tag =>
        if type_tag.value == "Process" then
          if item.id == cfg.ao_process_id then
            (.error "Cannot recreate the ao staking process", s)
          else
            match minByKey (fun sch => sch.process_count) s.schedulers with
            | none => (.error "Could not balance schedulers", s)
            | some min_scheduler =>
              match min_scheduler.row_id with
              | none => (.error "Missing id on scheduler", s)
              | some scheduler_row_id =>
                let updated := { min_scheduler with
                  process_count := min_scheduler.process_count + 1 }
                let ps : ProcessSchedulerRec :=
                  ⟨none, scheduler_row_id, item.id⟩
                let s2 := update_scheduler (save_process_scheduler s ps)
                  updated
                (.ok (some updated.url), s2)
        else if type_tag.value == "Message" then
          if item.target == cfg.ao_process_id then (.ok none, s)
          else
            match get_process_scheduler s item.target with
            | .error e => (.error e.fmt, s)
            | .ok ps =>
              match get_scheduler s ps.scheduler_row_id with
              | .error e => (.error e.fmt, s)
              | .ok sch => (.ok (some sch.url), s)
        else (.error "Cannot redirect data item, invalid Type Tag", s)

/-- What write_item durably saves on success. -/
inductive SavedItem where
  | savedProcess
  | savedMessage
deriving DecidableEq

/-- The tag validation and save decision of write_item, flows.rs lines
63-103: build and upload are external collaborators that run before this
logic, and Process.from_bundle and Message.from_bundle are modelled from the
spec as succeeding on an item the Builder already validated; the value
returned says which kind of record is saved to the data store. -/
def write_item (tags : List Tag) : Except String SavedItem :=
  let proto_tag_exists := tags.any (fun t => t.name == "Data-Protocol")
  let type_tag := tags.find? (fun t => t.name == "Type")
  if !proto_tag_exists then .error "Data-Protocol tag not present"
  else
    match type_tag with
    | some tt =>
      if tt.value == "Message" || tt.value == "Process" then
        if tt.value == "Process" then
          let mod_tag_exists := tags.any (fun t => t.name == "Module")
          let sched_tag_exists := tags.any (fun t => t.name == "Scheduler")
          if !mod_tag_exists || !sched_tag_exists then
            .error "Required Module and Scheduler tags for Process type not present"
          else .ok .savedProcess
        else .ok .savedMessage
      else .error "Type tag has an invalid value"
    | none => .error "Type tag not present"

/-- Error text of init_schedulers when a lookup fails with an error other
than NotFound. -/
def initErrMsg (e : StoreErrorType) : String :=
  "Error retrieving scheduler: " ++ e.fmt

/-- Loop body of init_schedulers, flows.rs lines 235-253, over an abstract
lookup oracle standing for get_scheduler_by_url: a NotFound lookup inserts a
new scheduler with process_count 0 (save_scheduler is modelled from the spec
as collecting the inserted rows), any other lookup error aborts the whole
run, a successful lookup inserts nothing. -/
def init_go (lookup : String → Except StoreErrorType Scheduler) :
    List String → List Scheduler → Except String (List Scheduler)
  | [], saved => .ok saved
  | u :: rest, saved =>
    match lookup u with
    | .error (.NotFound _) => init_go lookup rest (saved ++ [⟨none, u, 0⟩])
    | .error e => .error (initErrMsg e)
    | .ok _ => init_go lookup rest saved

/-- init_schedulers over the abstract lookup oracle: the list of scheduler
rows inserted, or the first fatal error. -/
def init_schedulers (lookup : String → Except StoreErrorType Scheduler)
    (urls : List String) : Except String (List Scheduler) :=
  init_go lookup urls []

/-- save_scheduler of the store client applied to the state. Modelled from
the spec: inserts the row and assigns its row_id. -/
def save_scheduler (s : Store) (sch : Scheduler) : Store :=
  { s with schedulers :=
      s.schedulers ++ [{ sch with row_id := some s.schedulers.length }] }

/-- init_schedulers run against the honest store model, threading the store
state through the loop of flows.rs lines 235-253. -/
def run_init (s : Store) : List String → Except String Store
  | [] => .ok s
  | u :: rest =>
    match get_scheduler_by_url s u with
    | .error (.NotFound _) => run_init (save_scheduler s ⟨none, u, 0⟩) rest
    | .error e => .error (initErrMsg e)
    | .ok _ => run_init s rest

/-! Concrete instances used by the closed evaluation theorems below. -/

/-- Router-mode configuration with native process id native. -/
def cfgR : Config := ⟨"router", "native"⟩

/-- Non-router configuration. -/
def cfgLocal : Config := ⟨"su", "native"⟩

/-- Scheduler registry with process counts 3, 1 and 2, as in the load
balancing example of the spec. -/
def store312 : Store :=
  ⟨[⟨some 1, "u1", 3⟩, ⟨some 2, "u2", 1⟩, ⟨some 3, "u3", 2⟩], []⟩

/-- Registry whose minimum-load scheduler lacks a row id. -/
def storeNoRow : Store := ⟨[⟨none, "u1", 1⟩, ⟨some 2, "u2", 3⟩], []⟩

/-- Empty store. -/
def storeEmpty : Store := ⟨[], []⟩

/-- Store holding one assignment of process pr to scheduler row 2, and the
row 2 scheduler itself. -/
def storeAssigned : Store :=
  ⟨[⟨some 2, "u2", 1⟩], [⟨some 7, 2, "pr"⟩]⟩

/-- A fresh Process-typed data item. -/
def itemProc : DataItem := ⟨"newp", "", [⟨"Type", "Process"⟩]⟩

/-- A Process-typed data item carrying the native process id. -/
def itemNative : DataItem := ⟨"native", "", [⟨"Type", "Process"⟩]⟩

/-- Tag set of a complete Process item for the write path. -/
def tagsProc : List Tag :=
  [⟨"Data-Protocol", "ao"⟩, ⟨"Type", "Process"⟩, ⟨"Module", "m"⟩,
   ⟨"Scheduler", "s"⟩]

/-- Url list used by the bootstrap evaluation. -/
def urlsAB : List String := ["a", "b"]

/-- The store after bootstrapping urlsAB into the empty store. -/
def storeAB : Store :=
  ⟨[⟨some 0, "a", 0⟩, ⟨some 1, "b", 0⟩], []⟩

/-- Recogniser of a NotFound lookup outcome, the sole recoverable one for
the bootstrap loop. -/
def notFoundB (r : Except StoreErrorType Scheduler) : Bool :=
  match r with
  | .error (.NotFound _) => true
  | _ => false

/-- Presence of a scheduler row with the given url: exactly the condition
under which get_scheduler_by_url succeeds. -/
def urlPresent (s : Store) (u : String) : Prop :=
  ∃ sch ∈ s.schedulers, sch.url = u

/-- Resolution of a scheduler row id to the url answered to the caller, the
shared tail of the redirect paths. -/
def scheduler_url (s : Store) (rid : Int) : Except String (Option String) :=
  match get_scheduler s rid with
  | .error e => .error e.fmt
  | .ok sch => .ok (some sch.url)

/-- C1: the claim requires fetch_values to query the store for the latest
message of the given process_id. The source queries get_latest_message with
the message id instead (scheduler.rs line 113): with a store holding a
previous message for process p (nonce 4, hash chain h0), a call for process
p with message id m1 finds no previous message and returns the genesis
values epoch 0, nonce 0, hash chain H(p, m1) instead of epoch 0, nonce 5,
hash chain H(h0, m1) as the claim requires. -/
theorem C1_fetch_values_queries_message_id :
    latestOf msgsP "p" = some ⟨"p", 0, 4, 5, "h0"⟩ ∧
    fetch_values testHash (latestOfOk msgsP) "p" (some "m1") 100 =
      .ok (0, 0, testHash "p" "m1", 100) ∧
    (((0 : Int), (0 : Int), testHash "p" "m1", (100 : Int)) :
        Int × Int × String × Int) ≠
      (0, 5, testHash "h0" "m1", 100) := by
  refine ⟨rfl, rfl, ?_⟩
  decide

/-- C2: the claim requires the per-process exclusive region to be released
only after the write is acknowledged by the store. In the source the lock is
released at the end of the inner scope of acquire_lock, before the function
returns and hence before the caller can persist the message: in the event
trace the release strictly precedes persistence, and the order the claim
requires does not hold. -/
theorem C2_lock_released_before_persist :
    acquireThenPersist.indexOf SeqEvent.lockRelease <
      acquireThenPersist.indexOf SeqEvent.persistMessage ∧
    ¬ acquireThenPersist.indexOf SeqEvent.persistMessage <
      acquireThenPersist.indexOf SeqEvent.lockRelease := by
  constructor
  · decide
  · decide

/-- C3 counterexample: the claim states that a call with no message id
returns the empty string as hash chain; the source returns the string
"wont be used" (scheduler.rs line 131), which is not empty. -/
theorem C3_hash_chain_not_empty :
    acquire_lock testHash (latestOfOk msgsP) "p" none 42 =
      .ok ⟨0, 0, 42, "wont be used"⟩ ∧
    ("wont be used" : String) ≠ "" := by
  refine ⟨rfl, ?_⟩
  decide

/-- C3 as amended: a call with no message id returns epoch 0, nonce 0, the
placeholder hash chain string "wont be used" and the current wall clock
milliseconds, and the result is the same whatever the store answers, so the
store is not consulted. -/
theorem C3_none_branch (H : String → String → String)
    (getLatest getLatest2 : String → Except String (Option Message))
    (pid : String) (now_ms : Int) :
    acquire_lock H getLatest pid none now_ms =
      .ok ⟨0, 0, now_ms, "wont be used"⟩ ∧
    acquire_lock H getLatest pid none now_ms =
      acquire_lock H getLatest2 pid none now_ms := by
  constructor
  · rfl
  · rfl

/-- C3 witness: the amended claim evaluated at a concrete call. -/
theorem C3_witness :
    acquire_lock testHash (latestOfOk msgsP) "q" none 7 =
      .ok ⟨0, 0, 7, "wont be used"⟩ :=
  (C3_none_branch testHash (latestOfOk msgsP) (latestOfOk []) "q" 7).1

/-- C8: outside router mode every redirect operation answers handle locally,
whatever its arguments and whatever the store holds, and the data item path
leaves the store untouched. -/
theorem C8_non_router_no_redirect (cfg : Config) (s : Store)
    (pid : Option String) (tx : String) (hint : Option String)
    (buildRes : Except String DataItem)
    (h : cfg.mode ≠ "router") :
    redirect_process_id cfg s pid = .ok none ∧
    redirect_tx_id cfg s tx hint = .ok none ∧
    redirect_data_item cfg s buildRes = (.ok none, s) := by
  refine ⟨?_, ?_, ?_⟩ <;>
    simp [redirect_process_id, redirect_tx_id, redirect_data_item, h]

/-- C8 witness: a non-router configuration at concrete arguments. -/
theorem C8_witness :
    cfgLocal.mode ≠ "router" ∧
    (redirect_process_id cfgLocal storeAssigned (some "pr") = .ok none ∧
     redirect_tx_id cfgLocal storeAssigned "pr" none = .ok none ∧
     redirect_data_item cfgLocal storeAssigned (.ok itemProc) =
       (.ok none, storeAssigned)) :=
  ⟨by decide,
   C8_non_router_no_redirect cfgLocal storeAssigned (some "pr") "pr" none
     (.ok itemProc) (by decide)⟩

/-- C5: in router mode the native process id is never redirected by
redirect_process_id, and a Process item carrying the native id is rejected
by redirect_data_item with the store left unchanged. -/
theorem C5_native_process_protected (cfg : Config)
    (hm : cfg.mode = "router") :
    (∀ s : Store,
      redirect_process_id cfg s (some cfg.ao_process_id) = .ok none) ∧
    (∀ (s : Store) (item : DataItem) (tt : Tag),
      item.tags.find? (fun t => t.name == "Type") = some tt →
      tt.value = "Process" →
      item.id = cfg.ao_process_id →
      redirect_data_item cfg s (.ok item) =
        (.error "Cannot recreate the ao staking process", s)) := by
  constructor
  · intro s
    simp [redirect_process_id, hm]
  · intro s item tt ht hv hid
    simp [redirect_data_item, hm, ht, hv, hid]

/-- C5 witness: the router configuration with native id native, on a store
holding an assignment, and a Process item whose id is native. -/
theorem C5_witness :
    (redirect_process_id cfgR storeAssigned (some cfgR.ao_process_id) =
       .ok none) ∧
    (redirect_data_item cfgR storeAssigned (.ok itemNative) =
       (.error "Cannot recreate the ao staking process", storeAssigned)) :=
  ⟨(C5_native_process_protected cfgR rfl).1 storeAssigned,
   (C5_native_process_protected cfgR rfl).2 storeAssigned itemNative
     ⟨"Type", "Process"⟩ (by decide) rfl rfl⟩

/-- C10: in router mode, when the selected minimum-load scheduler has no row
id, redirect_data_item answers the Missing id on scheduler error and the
store is returned unchanged: no assignment and no scheduler update is
persisted. -/
theorem C10_missing_row_id_no_write (cfg : Config) (s : Store)
    (item : DataItem) (tt : Tag) (m : Scheduler)
    (hm : cfg.mode = "router")
    (ht : item.tags.find? (fun t => t.name == "Type") = some tt)
    (hv : tt.value = "Process")
    (hid : item.id ≠ cfg.ao_process_id)
    (hmin : minByKey (fun sch => sch.process_count) s.schedulers = some m)
    (hrow : m.row_id = none) :
    redirect_data_item cfg s (.ok item) =
      (.error "Missing id on scheduler", s) := by
  simp [redirect_data_item, hm, ht, hv, hid, hmin, hrow]

/-- C10 witness: a registry whose least loaded scheduler lacks a row id. -/
theorem C10_witness :
    minByKey (fun sch => sch.process_count) storeNoRow.schedulers =
      some ⟨none, "u1", 1⟩ ∧
    redirect_data_item cfgR storeNoRow (.ok itemProc) =
      (.error "Missing id on scheduler", storeNoRow) :=
  ⟨by decide,
   C10_missing_row_id_no_write cfgR storeNoRow itemProc ⟨"Type", "Process"⟩
     ⟨none, "u1", 1⟩ rfl (by decide) rfl (by decide) (by decide) rfl⟩

/-- C9: write_item validates the tags of the built item before saving: a
missing Data-Protocol tag, a missing Type tag, a Type value other than
Message or Process, and a Process without both Module and Scheduler tags
each fail with the corresponding error and nothing is saved; a well-formed
Process is saved as a process record and a Message as a message record. -/
theorem C9_write_item_tag_validation (tags : List Tag) (tt : Tag) :
    (tags.any (fun t => t.name == "Data-Protocol") = false →
      write_item tags = .error "Data-Protocol tag not present") ∧
    (tags.any (fun t => t.name == "Data-Protocol") = true →
      tags.find? (fun t => t.name == "Type") = none →
      write_item tags = .error "Type tag not present") ∧
    (tags.any (fun t => t.name == "Data-Protocol") = true →
      tags.find? (fun t => t.name == "Type") = some tt →
      tt.value ≠ "Message" → tt.value ≠ "Process" →
      write_item tags = .error "Type tag has an invalid value") ∧
    (tags.any (fun t => t.name == "Data-Protocol") = true →
      tags.find? (fun t => t.name == "Type") = some tt →
      tt.value = "Process" →
      (tags.any (fun t => t.name == "Module") = false ∨
       tags.any (fun t => t.name == "Scheduler") = false) →
      write_item tags =
        .error "Required Module and Scheduler tags for Process type not present") ∧
    (tags.any (fun t => t.name == "Data-Protocol") = true →
      tags.find? (fun t => t.name == "Type") = some tt →
      tt.value = "Process" →
      tags.any (fun t => t.name == "Module") = true →
      tags.any (fun t => t.name == "Scheduler") = true →
      write_item tags = .ok .savedProcess) ∧
    (tags.any (fun t => t.name == "Data-Protocol") = true →
      tags.find? (fun t => t.name == "Type") = some tt →
      tt.value = "Message" →
      write_item tags = .ok .savedMessage) := by
  refine ⟨?_, ?_, ?_, ?_, ?_, ?_⟩
  · intro hp
    simp [write_item, hp]
  · intro hp ht
    simp [write_item, hp, ht]
  · intro hp ht h1 h2
    simp [write_item, hp, ht, h1, h2]
  · intro hp ht hv hms
    rcases hms with hmod | hsched
    · simp [write_item, hp, ht, hv, hmod]
    · simp [write_item, hp, ht, hv, hsched]
  · intro hp ht hv hmod hsched
    simp [write_item, hp, ht, hv, hmod, hsched]
  · intro hp ht hv
    simp [write_item, hp, ht, hv]

/-- C9 witness: a complete Process item is saved as a process. -/
theorem C9_witness :
    tagsProc.any (fun t => t.name == "Data-Protocol") = true ∧
    tagsProc.find? (fun t => t.name == "Type") = some ⟨"Type", "Process"⟩ ∧
    write_item tagsProc = .ok .savedProcess :=
  ⟨by decide, by decide,
   (C9_write_item_tag_validation tagsProc ⟨"Type", "Process"⟩).2.2.2.2.1
     (by decide) (by decide) rfl (by decide) (by decide)⟩

/-- C6: in router mode, redirect_tx_id answers local for the native id,
resolves the assignment on tx_id when one exists, falls back to the
process-id hint when the tx_id lookup fails, and asks for the hint when it
is absent or also fails to resolve. -/
theorem C6_redirect_tx_id_resolution (cfg : Config) (s : Store)
    (tx : String) (hint : Option String) (hm : cfg.mode = "router") :
    (redirect_tx_id cfg s cfg.ao_process_id hint = .ok none) ∧
    (tx ≠ cfg.ao_process_id →
      ∀ ps, get_process_scheduler s tx = .ok ps →
        redirect_tx_id cfg s tx hint =
          scheduler_url s ps.scheduler_row_id) ∧
    (tx ≠ cfg.ao_process_id →
      ∀ e p ps2, get_process_scheduler s tx = .error e →
        hint = some p →
        get_process_scheduler s p = .ok ps2 →
        redirect_tx_id cfg s tx hint =
          scheduler_url s ps2.scheduler_row_id) ∧
    (tx ≠ cfg.ao_process_id →
      ∀ e, get_process_scheduler s tx = .error e →
        hint = none →
        redirect_tx_id cfg s tx hint = .error noProcessMsg) ∧
    (tx ≠ cfg.ao_process_id →
      ∀ e p e2, get_process_scheduler s tx = .error e →
        hint = some p →
        get_process_scheduler s p = .error e2 →
        redirect_tx_id cfg s tx hint = .error noProcessMsg) := by
  refine ⟨?_, ?_, ?_, ?_, ?_⟩
  · simp [redirect_tx_id, hm]
  · intro htx ps hps
    simp [redirect_tx_id, hm, htx, hps, scheduler_url]
  · intro htx e p ps2 he hp hps2
    simp [redirect_tx_id, hm, htx, he, hp, hps2, scheduler_url]
  · intro htx e he hn
    simp [redirect_tx_id, hm, htx, he, hn]
  · intro htx e p e2 he hp he2
    simp [redirect_tx_id, hm, htx, he, hp, he2]

/-- Helper: minByKey never answers none on a nonempty list. -/
theorem minByKey_cons_isSome (f : Scheduler → Int) (x : Scheduler)
    (xs : List Scheduler) : (minByKey f (x :: xs)).isSome := by
  simp only [minByKey]
  cases hxs : minByKey f xs with
  | none => rfl
  | some y => by_cases h : f y < f x <;> simp [h]

/-- Helper: the scheduler answered by minByKey splits the list into a part
of strictly larger keys before it and the rest after it, and its key is a
minimum of the whole list. This is the first-minimum semantics of the Rust
iterator min_by_key. -/
theorem minByKey_spec (f : Scheduler → Int) (l : List Scheduler) :
    ∀ m, minByKey f l = some m →
      ∃ l1 l2, l = l1 ++ m :: l2 ∧ (∀ y ∈ l1, f m < f y) ∧
        (∀ y ∈ l, f m ≤ f y) := by
  induction l with
  | nil => intro m h; simp [minByKey] at h
  | cons x xs ih =>
    intro m h
    simp only [minByKey] at h
    cases hxs : minByKey f xs with
    | none =>
      rw [hxs] at h
      injection h with h
      subst h
      have hnil : xs = [] := by
        cases xs with
        | nil => rfl
        | cons a as =>
          have hs := minByKey_cons_isSome f a as
          rw [hxs] at hs
          simp at hs
      subst hnil
      exact ⟨[], [], rfl, by simp, by simp⟩
    | some y =>
      simp only [hxs] at h
      obtain ⟨l1, l2, hl, hstrict, hle⟩ := ih y hxs
      by_cases hlt : f y < f x
      · rw [if_pos hlt] at h
        injection h with h
        subst h
        refine ⟨x :: l1, l2, by rw [hl, List.cons_append], ?_, ?_⟩
        · intro z hz
          rcases List.mem_cons.mp hz with hzx | hz1
          · rw [hzx]; exact hlt
          · exact hstrict z hz1
        · intro z hz
          rcases List.mem_cons.mp hz with hzx | hz1
          · rw [hzx]; exact le_of_lt hlt
          · exact hle z hz1
      · rw [if_neg hlt] at h
        injection h with h
        subst h
        refine ⟨[], xs, rfl, by simp, ?_⟩
        intro z hz
        rcases List.mem_cons.mp hz with hzx | hz1
        · rw [hzx]
        · exact le_trans (not_lt.mp hlt) (hle z hz1)

/-- Helper: mapping a function that fixes every element of a list is the
identity. -/
theorem map_id_of_fixed (g : Scheduler → Scheduler) (l : List Scheduler)
    (h : ∀ a ∈ l, g a = a) : l.map g = l := by
  induction l with
  | nil => rfl
  | cons x xs ih =>
    simp only [List.map_cons]
    rw [h x (List.mem_cons_self x xs),
        ih (fun a ha => h a (List.mem_cons_of_mem x ha))]

/-- Helper: with no duplicate row ids, every row outside the distinguished
occurrence carries a different row id. -/
theorem row_id_ne_of_nodup (l1 l2 : List Scheduler) (m : Scheduler)
    (hnd : ((l1 ++ m :: l2).map (fun r => r.row_id)).Nodup) :
    (∀ r ∈ l1, r.row_id ≠ m.row_id) ∧ (∀ r ∈ l2, r.row_id ≠ m.row_id) := by
  rw [List.map_append, List.map_cons, List.nodup_append] at hnd
  obtain ⟨h1, h2, hdisj⟩ := hnd
  constructor
  · intro r hr heq
    exact hdisj (List.mem_map_of_mem _ hr)
      (by rw [heq]; exact List.mem_cons_self _ _)
  · intro r hr heq
    rw [List.nodup_cons] at h2
    exact h2.1 (by rw [← heq]; exact List.mem_map_of_mem _ hr)

/-- Helper: the row replacement performed by update_scheduler rewrites
exactly the distinguished occurrence when row ids are unique. -/
theorem update_map_split (l1 l2 : List Scheduler) (m m2 : Scheduler)
    (hnd : ((l1 ++ m :: l2).map (fun r => r.row_id)).Nodup) :
    (l1 ++ m :: l2).map
      (fun r => if r.row_id == m.row_id then m2 else r) =
      l1 ++ m2 :: l2 := by
  obtain ⟨hl1, hl2⟩ := row_id_ne_of_nodup l1 l2 m hnd
  rw [List.map_append, List.map_cons]
  have e1 : l1.map (fun r => if r.row_id == m.row_id then m2 else r) = l1 :=
    map_id_of_fixed _ l1 (fun a ha => by simp [hl1 a ha])
  have e2 : l2.map (fun r => if r.row_id == m.row_id then m2 else r) = l2 :=
    map_id_of_fixed _ l2 (fun a ha => by simp [hl2 a ha])
  rw [e1, e2]
  simp

/-- Helper: evaluation of redirect_data_item on a fresh Process item in
router mode with a selected minimum scheduler carrying a row id. -/
theorem redirect_data_item_process_eq (cfg : Config) (s : Store)
    (item : DataItem) (tt : Tag) (m : Scheduler) (rid : Int)
    (hm : cfg.mode = "router")
    (ht : item.tags.find? (fun t => t.name == "Type") = some tt)
    (hv : tt.value = "Process")
    (hid : item.id ≠ cfg.ao_process_id)
    (hmin : minByKey (fun sch => sch.process_count) s.schedulers = some m)
    (hrid : m.row_id = some rid) :
    redirect_data_item cfg s (.ok item) =
      (.ok (some m.url),
       ⟨s.schedulers.map
          (fun r => if r.row_id == some rid then
            { m with process_count := m.process_count + 1 } else r),
        s.process_schedulers ++ [⟨none, rid, item.id⟩]⟩) := by
  simp [redirect_data_item, hm, ht, hv, hid, hmin, hrid,
    update_scheduler, save_process_scheduler]

/-- C4: in router mode a fresh Process item is assigned to the first
scheduler of minimum load: its count is incremented in the store, a new
assignment record mapping the new process id to its row id is appended, and
its url is returned; on an empty registry the call fails with the balancing
error and the store is unchanged. Row ids are unique, being assigned by the
store on insert. -/
theorem C4_load_balanced_assignment (cfg : Config) (s : Store)
    (item : DataItem) (tt : Tag) (m : Scheduler) (rid : Int)
    (hm : cfg.mode = "router")
    (ht : item.tags.find? (fun t => t.name == "Type") = some tt)
    (hv : tt.value = "Process")
    (hid : item.id ≠ cfg.ao_process_id)
    (hmin : minByKey (fun sch => sch.process_count) s.schedulers = some m)
    (hrid : m.row_id = some rid)
    (hnd : (s.schedulers.map (fun r => r.row_id)).Nodup) :
    (∃ l1 l2,
      s.schedulers = l1 ++ m :: l2 ∧
      (∀ y ∈ l1, m.process_count < y.process_count) ∧
      (∀ y ∈ s.schedulers, m.process_count ≤ y.process_count) ∧
      redirect_data_item cfg s (.ok item) =
        (.ok (some m.url),
         ⟨l1 ++ { m with process_count := m.process_count + 1 } :: l2,
          s.process_schedulers ++ [⟨none, rid, item.id⟩]⟩)) ∧
    (∀ s2 : Store, s2.schedulers = [] →
      redirect_data_item cfg s2 (.ok item) =
        (.error "Could not balance schedulers", s2)) := by
  constructor
  · obtain ⟨l1, l2, hl, hstrict, hle⟩ :=
      minByKey_spec (fun sch => sch.process_count) s.schedulers m hmin
    refine ⟨l1, l2, hl, hstrict, hle, ?_⟩
    rw [redirect_data_item_process_eq cfg s item tt m rid hm ht hv hid hmin
      hrid]
    have hnd2 : ((l1 ++ m :: l2).map (fun r => r.row_id)).Nodup := by
      rw [← hl]; exact hnd
    rw [hl, ← hrid]
    rw [update_map_split l1 l2 m
      { m with process_count := m.process_count + 1 } hnd2]
  · intro s2 h2
    simp [redirect_data_item, hm, ht, hv, hid, h2, minByKey]

/-- C4 witness: registry with counts 3, 1 and 2; the count-1 scheduler u2 is
selected, its count becomes 2, and the new process is assigned to its
row. -/
theorem C4_witness :
    minByKey (fun sch => sch.process_count) store312.schedulers =
      some ⟨some 2, "u2", 1⟩ ∧
    (∃ l1 l2,
      store312.schedulers = l1 ++ ⟨some 2, "u2", 1⟩ :: l2 ∧
      (∀ y ∈ l1, (1 : Int) < y.process_count) ∧
      (∀ y ∈ store312.schedulers, (1 : Int) ≤ y.process_count) ∧
      redirect_data_item cfgR store312 (.ok itemProc) =
        (.ok (some "u2"),
         ⟨l1 ++ ⟨some 2, "u2", 2⟩ :: l2,
          store312.process_schedulers ++ [⟨none, 2, "newp"⟩]⟩)) :=
  ⟨by decide,
   (C4_load_balanced_assignment cfgR store312 itemProc ⟨"Type", "Process"⟩
     ⟨some 2, "u2", 1⟩ 2 rfl (by decide) rfl (by decide) (by decide) rfl
     (by decide)).1⟩

/-- Helper: a url lookup over a store without a matching row answers
NotFound. -/
theorem get_scheduler_by_url_of_none (s : Store) (v : String)
    (h : s.schedulers.find? (fun sch => sch.url == v) = none) :
    get_scheduler_by_url s v = .error (.NotFound "scheduler") := by
  simp [get_scheduler_by_url, h]

/-- Helper: a url lookup over a store with a matching row answers it. -/
theorem get_scheduler_by_url_of_some (s : Store) (v : String)
    (sch : Scheduler)
    (h : s.schedulers.find? (fun sch => sch.url == v) = some sch) :
    get_scheduler_by_url s v = .ok sch := by
  simp [get_scheduler_by_url, h]

/-- Helper: the bootstrap loop over an oracle whose answers are all ok or
NotFound succeeds and inserts exactly the NotFound urls, each as a fresh row
with process_count 0. -/
theorem init_go_ok (lookup : String → Except StoreErrorType Scheduler) :
    ∀ (urls : List String) (saved : List Scheduler),
      (∀ u ∈ urls, (∃ sch, lookup u = .ok sch) ∨
        (∃ msg, lookup u = .error (.NotFound msg))) →
      init_go lookup urls saved =
        .ok (saved ++ (urls.filter (fun u => notFoundB (lookup u))).map
          (fun u => ⟨none, u, 0⟩)) := by
  intro urls
  induction urls with
  | nil => intro saved h; simp [init_go]
  | cons u rest ih =>
    intro saved h
    have hrest := fun v hv => h v (List.mem_cons_of_mem u hv)
    rcases h u (List.mem_cons_self u rest) with ⟨sch, hok⟩ | ⟨msg, hnf⟩
    · simp only [init_go, hok]
      rw [ih saved hrest]
      simp [List.filter_cons, notFoundB, hok]
    · simp only [init_go, hnf]
      rw [ih (saved ++ [Scheduler.mk none u 0]) hrest]
      simp [List.filter_cons, notFoundB, hnf]

/-- Helper: the first lookup failure that is not NotFound aborts the whole
bootstrap loop with that error. -/
theorem init_go_abort (lookup : String → Except StoreErrorType Scheduler) :
    ∀ (us1 : List String) (u : String) (us2 : List String)
      (saved : List Scheduler) (e : StoreErrorType),
      (∀ v ∈ us1, (∃ sch, lookup v = .ok sch) ∨
        (∃ msg, lookup v = .error (.NotFound msg))) →
      lookup u = .error e →
      (∀ msg, e ≠ .NotFound msg) →
      init_go lookup (us1 ++ u :: us2) saved = .error (initErrMsg e) := by
  intro us1
  induction us1 with
  | nil =>
    intro u us2 saved e h hu hne
    cases e with
    | NotFound m => exact absurd rfl (hne m)
    | Other m => simp [init_go, hu]
  | cons v rest ih =>
    intro u us2 saved e h hu hne
    have hrest := fun w hw => h w (List.mem_cons_of_mem v hw)
    rcases h v (List.mem_cons_self v rest) with ⟨sch, hok⟩ | ⟨msg, hnf⟩
    · simp only [List.cons_append, init_go, hok]
      exact ih u us2 saved e hrest hu hne
    · simp only [List.cons_append, init_go, hnf]
      exact ih u us2 (saved ++ [⟨none, v, 0⟩]) e hrest hu hne

/-- Helper: inserting a scheduler row preserves every url already
present. -/
theorem urlPresent_save (s : Store) (sch : Scheduler) (u : String)
    (h : urlPresent s u) : urlPresent (save_scheduler s sch) u := by
  obtain ⟨w, hw, hu⟩ := h
  exact ⟨w, by simp [save_scheduler, List.mem_append, hw], hu⟩

/-- Helper: the row inserted for url v makes v present. -/
theorem urlPresent_save_self (s : Store) (v : String) :
    urlPresent (save_scheduler s ⟨none, v, 0⟩) v := by
  refine ⟨⟨some (s.schedulers.length : Int), v, 0⟩, ?_, rfl⟩
  simp [save_scheduler, List.mem_append]

/-- Helper: the bootstrap run only inserts rows, so urls present before a
run stay present after it. -/
theorem run_init_mono : ∀ (urls : List String) (s s2 : Store),
    run_init s urls = .ok s2 → ∀ u, urlPresent s u → urlPresent s2 u := by
  intro urls
  induction urls with
  | nil =>
    intro s s2 h u hp
    simp only [run_init] at h
    injection h with h
    rw [← h]
    exact hp
  | cons v rest ih =>
    intro s s2 h u hp
    rcases hfind : s.schedulers.find? (fun sch => sch.url == v) with _ | sch
    · rw [run_init, get_scheduler_by_url_of_none s v hfind] at h
      exact ih _ s2 h u (urlPresent_save s _ u hp)
    · rw [run_init, get_scheduler_by_url_of_some s v sch hfind] at h
      exact ih s s2 h u hp

/-- Helper: after a successful bootstrap run every url of the list is
present in the resulting store. -/
theorem run_init_present : ∀ (urls : List String) (s s2 : Store),
    run_init s urls = .ok s2 → ∀ u ∈ urls, urlPresent s2 u := by
  intro urls
  induction urls with
  | nil =>
    intro s s2 h u hu
    exact absurd hu (List.not_mem_nil u)
  | cons v rest ih =>
    intro s s2 h u hu
    rcases hfind : s.schedulers.find? (fun sch => sch.url == v) with _ | sch
    · rw [run_init, get_scheduler_by_url_of_none s v hfind] at h
      rcases List.mem_cons.mp hu with huv | hur
      · rw [huv]
        exact run_init_mono rest _ s2 h v (urlPresent_save_self s v)
      · exact ih _ s2 h u hur
    · rw [run_init, get_scheduler_by_url_of_some s v sch hfind] at h
      rcases List.mem_cons.mp hu with huv | hur
      · have hmem := List.mem_of_find?_eq_some hfind
        have hurl : sch.url = v := by
          have := List.find?_some hfind
          exact eq_of_beq this
        rw [huv]
        exact run_init_mono rest s s2 h v ⟨sch, hmem, hurl⟩
      · exact ih s s2 h u hur

/-- Helper: a bootstrap run over urls that are all present already changes
nothing and succeeds. -/
theorem run_init_noop : ∀ (urls : List String) (s : Store),
    (∀ u ∈ urls, urlPresent s u) → run_init s urls = .ok s := by
  intro urls
  induction urls with
  | nil => intro s _; rfl
  | cons v rest ih =>
    intro s h
    obtain ⟨w, hw, hu⟩ := h v (List.mem_cons_self v rest)
    rcases hfind : s.schedulers.find? (fun sch => sch.url == v) with _ | sch
    · exfalso
      have := List.find?_eq_none.mp hfind w hw
      rw [hu] at this
      simp at this
    · rw [run_init, get_scheduler_by_url_of_some s v sch hfind]
      exact ih s (fun u hu2 => h u (List.mem_cons_of_mem v hu2))

/-- C7: bootstrap reconciliation inserts exactly the urls whose lookup
answers NotFound, each as a new scheduler with process_count 0; the first
lookup error of any other kind aborts the whole run and is returned; and a
re-run over a store produced by a successful run inserts nothing. -/
theorem C7_bootstrap_reconciliation :
    (∀ (lookup : String → Except StoreErrorType Scheduler)
       (urls : List String),
      (∀ u ∈ urls, (∃ sch, lookup u = .ok sch) ∨
        (∃ msg, lookup u = .error (.NotFound msg))) →
      init_schedulers lookup urls =
        .ok ((urls.filter (fun u => notFoundB (lookup u))).map
          (fun u => ⟨none, u, 0⟩))) ∧
    (∀ (lookup : String → Except StoreErrorType Scheduler)
       (us1 : List String) (u : String) (us2 : List String)
       (e : StoreErrorType),
      (∀ v ∈ us1, (∃ sch, lookup v = .ok sch) ∨
        (∃ msg, lookup v = .error (.NotFound msg))) →
      lookup u = .error e →
      (∀ msg, e ≠ .NotFound msg) →
      init_schedulers lookup (us1 ++ u :: us2) = .error (initErrMsg e)) ∧
    (∀ (s : Store) (urls : List String) (s2 : Store),
      run_init s urls = .ok s2 → run_init s2 urls = .ok s2) := by
  refine ⟨?_, ?_, ?_⟩
  · intro lookup urls h
    have he := init_go_ok lookup urls [] h
    simpa [init_schedulers] using he
  · intro lookup us1 u us2 e h hu hne
    exact init_go_abort lookup us1 u us2 [] e h hu hne
  · intro s urls s2 h
    exact run_init_noop urls s2 (run_init_present urls s s2 h)

/-- C7 witness: bootstrapping urls a and b into the empty store inserts two
rows with process_count 0, and a re-run inserts nothing. -/
theorem C7_witness :
    run_init storeEmpty urlsAB = .ok storeAB ∧
    run_init storeAB urlsAB = .ok storeAB :=
  ⟨rfl, C7_bootstrap_reconciliation.2.2 storeEmpty urlsAB storeAB rfl⟩

/-- C6 witness: a message id that resolves only through the process-id
hint. -/
theorem C6_witness :
    get_process_scheduler storeAssigned "msg1" =
      .error (.NotFound "process scheduler") ∧
    get_process_scheduler storeAssigned "pr" = .ok ⟨some 7, 2, "pr"⟩ ∧
    redirect_tx_id cfgR storeAssigned "msg1" (some "pr") =
      scheduler_url storeAssigned 2 :=
  ⟨rfl, rfl,
   (C6_redirect_tx_id_resolution cfgR storeAssigned "msg1"
       (some "pr") rfl).2.2.1 (by decide) (.NotFound "process scheduler")
     "pr" ⟨some 7, 2, "pr"⟩ rfl rfl rfl⟩

end Su
